import Mathlib

/-!
Verification of `photutils/background.py` (class `Background`).

The code is embedded shallowly:

* IEEE float pixel values are idealised as exact rationals, except where
  NaN handling is itself the behaviour under study: the image type carries
  an explicit NaN constructor (`PixVal`), because `_pad_data` pads with
  `np.nan` and derives the pad mask with `np.isnan`.
* 2D/3D numpy arrays become structures holding their shape and a total
  indexing function (out-of-range indices return junk that no theorem
  depends on).
* The external black boxes the spec declares out of scope — the iterative
  `sigma_clip` (we quantify over its output grid), `np.ma.std` (whose exact
  value is an irrational square root; it is passed as a reduction
  parameter), `scipy.ndimage.generic_filter` and
  `scipy.interpolate.RectBivariateSpline` — are modelled as function
  parameters, so every theorem quantifies over all of their behaviours.
* `np.ma.mean`, `np.ma.median` and `np.ma.var` over the clipped tile axis
  are implemented exactly over the list of unmasked values of a tile.
-/

/-- A pixel value of a float image: a finite value (idealised as `ℚ`) or
IEEE NaN.  NaN is needed because `_pad_data` pads with `np.nan` and then
computes the pad mask via `np.isnan`. -/
inductive PixVal where
  | num (q : ℚ)
  | nan
deriving DecidableEq

/-- `np.isnan` on a single pixel value. -/
def PixVal.isnan : PixVal → Bool
  | .nan => true
  | .num _ => false

/-- A 2D float array (`data` argument of `Background.__init__`):
shape `(h, w)` plus a total indexing function. -/
structure PImage where
  h : ℕ
  w : ℕ
  val : ℕ → ℕ → PixVal

/-- A 2D boolean array (the user-supplied `mask`). -/
structure BMask where
  h : ℕ
  w : ℕ
  val : ℕ → ℕ → Bool

/-- A 2D masked array (`np.ma.masked_array`): values plus a boolean mask,
`true` meaning the entry is masked (excluded from statistics). -/
structure MImage where
  h : ℕ
  w : ℕ
  val : ℕ → ℕ → PixVal
  mask : ℕ → ℕ → Bool

/-- The state stored by `Background.__init__` (the attributes set on
`self`). -/
structure BackgroundState where
  boxShape : ℕ × ℕ
  filterShape : ℕ × ℕ
  mask : Option BMask
  method : String
  sigclipSigma : ℚ
  sigclipIters : Option ℕ
  yextra : ℕ
  xextra : ℕ
  dataShapeOrig : ℕ × ℕ
  padded : Bool
  data : MImage

/-- `Background._pad_data`: pad `data` and `mask` on the bottom/right with
`np.nan` (resp. `False`) so the shape is a multiple of `box_shape`; the
mask of the result is `np.isnan(padded_data)` OR-ed with the padded user
mask.  `yextra = h % box_h` and `xextra = w % box_w` were computed by
`__init__` before the call. -/
def padData (boxShape : ℕ × ℕ) (yextra xextra : ℕ) (data : PImage)
    (mask : Option BMask) : MImage :=
  let ypad : ℕ := if yextra > 0 then boxShape.1 - yextra else 0
  let xpad : ℕ := if xextra > 0 then boxShape.2 - xextra else 0
  let paddedData : ℕ → ℕ → PixVal := fun r c =>
    if r < data.h ∧ c < data.w then data.val r c else PixVal.nan
  let maskPad : ℕ → ℕ → Bool := fun r c =>
    match mask with
    | some m => if r < data.h ∧ c < data.w then m.val r c else false
    | none => false
  { h := data.h + ypad
    w := data.w + xpad
    val := paddedData
    mask := fun r c => (paddedData r c).isnan || maskPad r c }

/-- The non-failing tail of `Background.__init__` (everything after the
mask-shape check): store the parameters, compute `yextra`/`xextra`, and
either pad (when some extra is nonzero) or wrap `data` into a masked array
with the user mask as is. -/
def backgroundInitState (data : PImage) (boxShape filterShape : ℕ × ℕ)
    (mask : Option BMask) (method : String) (sigclipSigma : ℚ)
    (sigclipIters : Option ℕ) : BackgroundState :=
  let yextra : ℕ := data.h % boxShape.1
  let xextra : ℕ := data.w % boxShape.2
  if yextra > 0 ∨ xextra > 0 then
    { boxShape := boxShape
      filterShape := filterShape
      mask := mask
      method := method
      sigclipSigma := sigclipSigma
      sigclipIters := sigclipIters
      yextra := yextra
      xextra := xextra
      dataShapeOrig := (data.h, data.w)
      padded := true
      data := padData boxShape yextra xextra data mask }
  else
    { boxShape := boxShape
      filterShape := filterShape
      mask := mask
      method := method
      sigclipSigma := sigclipSigma
      sigclipIters := sigclipIters
      yextra := yextra
      xextra := xextra
      dataShapeOrig := (data.h, data.w)
      padded := false
      data :=
        { h := data.h
          w := data.w
          val := data.val
          mask := fun r c =>
            match mask with
            | some m => m.val r c
            | none => false } }

/-- `Background.__init__`: raise `ValueError` when a mask is supplied whose
shape differs from the data shape, otherwise build the state. -/
def backgroundInit (data : PImage) (boxShape filterShape : ℕ × ℕ)
    (mask : Option BMask) (method : String) (sigclipSigma : ℚ)
    (sigclipIters : Option ℕ) : Except String BackgroundState :=
  match mask with
  | some m =>
      if m.h ≠ data.h ∨ m.w ≠ data.w then
        Except.error "mask shape must match data shape"
      else
        Except.ok (backgroundInitState data boxShape filterShape mask method
          sigclipSigma sigclipIters)
  | none =>
      Except.ok (backgroundInitState data boxShape filterShape mask method
        sigclipSigma sigclipIters)

example :
    (backgroundInitState ⟨3, 5, fun _ _ => .num 1⟩ (2, 2) (1, 1) none
      "sextractor" 3 none).data.h = 4 := by decide

example :
    (backgroundInitState ⟨3, 5, fun _ _ => .num 1⟩ (2, 2) (1, 1) none
      "sextractor" 3 none).data.w = 6 := by decide

/-! ### `_sigclip_data`: the reshape into tiles

`data_rebin = np.ma.swapaxes(self.data.reshape(y_nbins, ny_box, x_nbins,
nx_box), 1, 2).reshape(y_nbins, x_nbins, ny_box * nx_box)`.

numpy reshapes are C-order reindexings of the flattened array; we embed
each step as the index transformation it performs, applied separately to
the value plane and the mask plane of the masked array (numpy reshapes a
masked array by reshaping both planes identically). -/

/-- C-order flattening of a 2D array of width `w`: entry `n` is row
`n / w`, column `n % w`. -/
def flatten2 (w : ℕ) (f : ℕ → ℕ → α) : ℕ → α :=
  fun n => f (n / w) (n % w)

/-- `reshape(d0, d1, d2, d3)` of a C-order flat array: index
`(a, b, c, d)` reads flat position `((a*d1 + b)*d2 + c)*d3 + d`. -/
def reshape4 (d1 d2 d3 : ℕ) (flat : ℕ → α) : ℕ → ℕ → ℕ → ℕ → α :=
  fun a b c d => flat (((a * d1 + b) * d2 + c) * d3 + d)

/-- `np.ma.swapaxes(·, 1, 2)` on a 4D array. -/
def swapaxes12 (g : ℕ → ℕ → ℕ → ℕ → α) : ℕ → ℕ → ℕ → ℕ → α :=
  fun a b c d => g a c b d

/-- C-order `reshape` of a 4D array of trailing dims `(d2, d3)` into a 3D
array merging the last two axes: index `(i, j, k)` reads
`(i, j, k / d3, k % d3)`. -/
def reshapeMerge23 (d3 : ℕ) (g : ℕ → ℕ → ℕ → ℕ → α) : ℕ → ℕ → ℕ → α :=
  fun i j k => g i j (k / d3) (k % d3)

/-- The value plane of `data_rebin` built by `_sigclip_data` from
`self.data` and `self.box_shape` (`x_nbins = nx / nx_box`). -/
def dataRebinVal (st : BackgroundState) : ℕ → ℕ → ℕ → PixVal :=
  reshapeMerge23 st.boxShape.2
    (swapaxes12
      (reshape4 st.boxShape.1 (st.data.w / st.boxShape.2) st.boxShape.2
        (flatten2 st.data.w st.data.val)))

/-- The mask plane of `data_rebin`: the same reindexing applied to the
mask of the masked array. -/
def dataRebinMask (st : BackgroundState) : ℕ → ℕ → ℕ → Bool :=
  reshapeMerge23 st.boxShape.2
    (swapaxes12
      (reshape4 st.boxShape.1 (st.data.w / st.boxShape.2) st.boxShape.2
        (flatten2 st.data.w st.data.mask)))

/-- The tiling index map: padded pixel `(r, c)` belongs to tile
`(r / box_h, c / box_w)` at flat intra-tile offset
`(r % box_h) * box_w + (c % box_w)`. -/
def pixToTile (bh bw r c : ℕ) : ℕ × ℕ × ℕ :=
  (r / bh, c / bw, (r % bh) * bw + c % bw)

/-- The inverse of `pixToTile`: tile `(i, j)` at flat offset `k` is padded
pixel `(i * box_h + k / box_w, j * box_w + k % box_w)`. -/
def tileToPix (bh bw : ℕ) (t : ℕ × ℕ × ℕ) : ℕ × ℕ :=
  (t.1 * bh + t.2.2 / bw, t.2.1 * bw + t.2.2 % bw)

/-! ### The clipped tile grid and the masked reductions

`self.data_sigclip = sigma_clip(data_rebin, ...)` — `sigma_clip` is an
external black box (spec §1); its output is a masked 3D array of shape
`(y_nbins, x_nbins, ny_box * nx_box)`, which we quantify over.  Values are
idealised as exact rationals. -/

/-- The clipped tile grid `self.data_sigclip`: shape
`(ynb, xnb, tsize)` with values and mask. -/
structure TileGrid where
  ynb : ℕ
  xnb : ℕ
  tsize : ℕ
  val : ℕ → ℕ → ℕ → ℚ
  mask : ℕ → ℕ → ℕ → Bool

/-- The list of unmasked values of tile `(i, j)`, in axis-2 order: the
values the `np.ma` reductions along `axis=2` see. -/
def tileValues (g : TileGrid) (i j : ℕ) : List ℚ :=
  ((List.range g.tsize).filter (fun k => !(g.mask i j k))).map (g.val i j)

/-- `np.ma.mean` over a tile's unmasked values: sum divided by count. -/
def maMean (xs : List ℚ) : ℚ := xs.sum / xs.length

/-- `np.ma.median` (and `np.median`) over a tile's unmasked values: sort
ascending; middle element for odd length, average of the two middle
elements for even length. -/
def maMedian (xs : List ℚ) : ℚ :=
  let s := xs.insertionSort (· ≤ ·)
  if xs.length % 2 = 1 then s.getD (xs.length / 2) 0
  else (s.getD (xs.length / 2 - 1) 0 + s.getD (xs.length / 2) 0) / 2

/-- `np.ma.var` (population variance, `ddof=0`, the numpy default) over a
tile's unmasked values. -/
def maVar (xs : List ℚ) : ℚ :=
  (xs.map (fun x => (x - maMean xs) ^ 2)).sum / xs.length

/-- The SExtractor branch condition
`(np.abs(box_mean - box_median) / box_std) < 0.3` with
`box_std = sqrt(box_var)`, rendered in exact arithmetic without square
roots: for `var > 0` the float comparison is equivalent to
`100*(mean - median)^2 < 9*var`; for `var = 0` the IEEE division by
`0.0` yields `inf` or `nan`, and both compare false against `0.3`, so the
condition is false. -/
def sexCondition (mean med var : ℚ) : Bool :=
  if var = 0 then false else decide (100 * (mean - med) ^ 2 < 9 * var)

/-- One entry of the SExtractor background mesh
(`np.where(condition, (2.5 * box_median) - (1.5 * box_mean),
box_median)`). -/
def sexTileVal (xs : List ℚ) : ℚ :=
  if sexCondition (maMean xs) (maMedian xs) (maVar xs) then
    2.5 * maMedian xs - 1.5 * maMean xs
  else
    maMedian xs

/-- A 2D rational array (a background or RMS mesh / map). -/
structure Arr where
  h : ℕ
  w : ℕ
  val : ℕ → ℕ → ℚ

/-- The SExtractor mesh over all tiles. -/
def sexMesh (g : TileGrid) : Arr :=
  ⟨g.ynb, g.xnb, fun i j => sexTileVal (tileValues g i j)⟩

/-- The method dispatch of `background_mesh` (the `if/elif` chain before
the filtering step); unknown methods raise `ValueError`. -/
def methodMesh (method : String) (g : TileGrid) : Except String Arr :=
  if method = "mean" then
    Except.ok ⟨g.ynb, g.xnb, fun i j => maMean (tileValues g i j)⟩
  else if method = "median" then
    Except.ok ⟨g.ynb, g.xnb, fun i j => maMedian (tileValues g i j)⟩
  else if method = "sextractor" then
    Except.ok (sexMesh g)
  else if method = "mode_estimate" then
    Except.ok ⟨g.ynb, g.xnb, fun i j =>
      3 * maMedian (tileValues g i j) - 2 * maMean (tileValues g i j)⟩
  else
    Except.error ("method \"" ++ method ++ "\" is not defined")

/-- `background_mesh`: the method dispatch followed by
`self._filter_meshes` when `filter_shape != (1, 1)`.  The 2D median filter
(`scipy.ndimage.generic_filter`) is an external black box, passed as
`filterF`. -/
def backgroundMesh (st : BackgroundState) (filterF : Arr → Arr)
    (g : TileGrid) : Except String Arr :=
  match methodMesh st.method g with
  | Except.error e => Except.error e
  | Except.ok mesh =>
      Except.ok (if st.filterShape ≠ (1, 1) then filterF mesh else mesh)

/-- `np.ma.std(self.data_sigclip, axis=2)`: the per-tile reduction of the
RMS path.  Its exact value is the square root of `maVar`, irrational in
general, so the reduction is passed as the black-box parameter `stdF`
applied to each tile's unmasked values. -/
def stdMesh (stdF : List ℚ → ℚ) (g : TileGrid) : Arr :=
  ⟨g.ynb, g.xnb, fun i j => stdF (tileValues g i j)⟩

/-- `background_rms_mesh`: the std mesh, filtered when
`filter_shape != (1, 1)`.  Never raises. -/
def backgroundRmsMesh (st : BackgroundState) (stdF : List ℚ → ℚ)
    (filterF : Arr → Arr) (g : TileGrid) : Arr :=
  let m := stdMesh stdF g
  if st.filterShape ≠ (1, 1) then filterF m else m

/-! ### `_resize_meshes`, cropping, mask zeroing and the public maps -/

/-- `Background._resize_meshes`: the bicubic `RectBivariateSpline` fit and
evaluation is an external black box (`spline`); what the code fixes is the
evaluation grid: `yy`/`xx` have lengths `self.data.shape`, so the result
has the shape of the (possibly padded) data. -/
def resizeMeshes (st : BackgroundState) (spline : Arr → ℕ → ℕ → ℚ)
    (mesh : Arr) : Arr :=
  ⟨st.data.h, st.data.w, spline mesh⟩

/-- The crop `bkg[0:y0, 0:x0]`: a prefix slice (numpy slices clamp to the
array's extent, hence the `min`); values at retained indices are
unchanged. -/
def cropSlice (a : Arr) (y0 x0 : ℕ) : Arr :=
  ⟨min y0 a.h, min x0 a.w, a.val⟩

/-- `bkg[self.mask] = 0.`: when a user mask is present, set every entry
where it is true to exactly `0`. -/
def zeroWhereMasked (mask : Option BMask) (a : Arr) : Arr :=
  match mask with
  | some m => ⟨a.h, a.w, fun r c => if m.val r c then 0 else a.val r c⟩
  | none => a

/-- `Background.background`: resize the background mesh, crop back to the
original shape when padding was applied, and zero the user-masked
pixels. -/
def background (st : BackgroundState) (filterF : Arr → Arr)
    (spline : Arr → ℕ → ℕ → ℚ) (g : TileGrid) : Except String Arr :=
  match backgroundMesh st filterF g with
  | Except.error e => Except.error e
  | Except.ok mesh =>
      let bkg := resizeMeshes st spline mesh
      let bkg :=
        if st.padded then cropSlice bkg st.dataShapeOrig.1 st.dataShapeOrig.2
        else bkg
      Except.ok (zeroWhereMasked st.mask bkg)

/-- `Background.background_rms`: same pipeline on the RMS mesh; never
raises. -/
def backgroundRms (st : BackgroundState) (stdF : List ℚ → ℚ)
    (filterF : Arr → Arr) (spline : Arr → ℕ → ℕ → ℚ) (g : TileGrid) : Arr :=
  let bkgrms := resizeMeshes st spline (backgroundRmsMesh st stdF filterF g)
  let bkgrms :=
    if st.padded then cropSlice bkgrms st.dataShapeOrig.1 st.dataShapeOrig.2
    else bkgrms
  zeroWhereMasked st.mask bkgrms

/-- Row-major list of the entries of `a` at positions where `keep` is
true: the flattening performed by boolean indexing `arr[~mask]` (and by
`np.median` on the whole array when `keep` is constantly true). -/
def arrEntries (a : Arr) (keep : ℕ → ℕ → Bool) : List ℚ :=
  (List.range a.h).flatMap (fun r =>
    ((List.range a.w).filter (fun c => keep r c)).map (a.val r))

/-- `Background.background_median`: `np.median` of the background map over
`~self.mask` (all pixels when no mask). -/
def backgroundMedian (st : BackgroundState) (filterF : Arr → Arr)
    (spline : Arr → ℕ → ℕ → ℚ) (g : TileGrid) : Except String ℚ :=
  match background st filterF spline g with
  | Except.error e => Except.error e
  | Except.ok b =>
      match st.mask with
      | some m => Except.ok (maMedian (arrEntries b (fun r c => !(m.val r c))))
      | none => Except.ok (maMedian (arrEntries b (fun _ _ => true)))

/-- `Background.background_rms_median`: `np.median` of the RMS map over
`~self.mask` (all pixels when no mask); never raises. -/
def backgroundRmsMedian (st : BackgroundState) (stdF : List ℚ → ℚ)
    (filterF : Arr → Arr) (spline : Arr → ℕ → ℕ → ℚ) (g : TileGrid) : ℚ :=
  let b := backgroundRms st stdF filterF spline g
  match st.mask with
  | some m => maMedian (arrEntries b (fun r c => !(m.val r c)))
  | none => maMedian (arrEntries b (fun _ _ => true))

/-- The four recognised method strings. -/
def knownMethods : List String := ["mean", "median", "sextractor", "mode_estimate"]

/-- The effective user mask: the supplied mask's entry, or `False` when no
mask was given (`np.ma.masked_array(data, mask=None)` has an all-false
mask). -/
def userMaskAt (mask : Option BMask) (r c : ℕ) : Bool :=
  match mask with
  | some m => m.val r c
  | none => false

/-! ### Helper lemmas about construction -/

lemma padLen_eq (n b : ℕ) :
    (if n % b > 0 then b - n % b else 0) = (b - n % b) % b := by
  rcases Nat.eq_zero_or_pos b with hb | hb
  · subst hb
    simp [Nat.mod_zero]
  · rcases Nat.eq_zero_or_pos (n % b) with he | he
    · rw [he]
      simp [Nat.mod_self]
    · rw [if_pos he, Nat.mod_eq_of_lt (Nat.sub_lt hb he)]

lemma initState_dataShapeOrig (data : PImage) (bs fs : ℕ × ℕ)
    (mask : Option BMask) (method : String) (s : ℚ) (it : Option ℕ) :
    (backgroundInitState data bs fs mask method s it).dataShapeOrig
      = (data.h, data.w) := by
  unfold backgroundInitState
  dsimp only
  split <;> rfl

lemma initState_data_h (data : PImage) (bs fs : ℕ × ℕ)
    (mask : Option BMask) (method : String) (s : ℚ) (it : Option ℕ) :
    (backgroundInitState data bs fs mask method s it).data.h
      = data.h + (bs.1 - data.h % bs.1) % bs.1 := by
  unfold backgroundInitState padData
  dsimp only
  split
  · dsimp only
    rw [padLen_eq]
  · rename_i h
    have he : data.h % bs.1 = 0 := by omega
    rw [he, Nat.sub_zero, Nat.mod_self]
    rfl

lemma initState_data_w (data : PImage) (bs fs : ℕ × ℕ)
    (mask : Option BMask) (method : String) (s : ℚ) (it : Option ℕ) :
    (backgroundInitState data bs fs mask method s it).data.w
      = data.w + (bs.2 - data.w % bs.2) % bs.2 := by
  unfold backgroundInitState padData
  dsimp only
  split
  · dsimp only
    rw [padLen_eq]
  · rename_i h
    have he : data.w % bs.2 = 0 := by omega
    rw [he, Nat.sub_zero, Nat.mod_self]
    rfl

lemma initState_val_orig (data : PImage) (bs fs : ℕ × ℕ)
    (mask : Option BMask) (method : String) (s : ℚ) (it : Option ℕ)
    (r c : ℕ) (hr : r < data.h) (hc : c < data.w) :
    (backgroundInitState data bs fs mask method s it).data.val r c
      = data.val r c := by
  unfold backgroundInitState padData
  dsimp only
  split
  · dsimp only
    rw [if_pos ⟨hr, hc⟩]
  · rfl

lemma initState_mask_outside (data : PImage) (bs fs : ℕ × ℕ)
    (mask : Option BMask) (method : String) (s : ℚ) (it : Option ℕ)
    (r c : ℕ) (hout : ¬(r < data.h ∧ c < data.w))
    (hr : r < (backgroundInitState data bs fs mask method s it).data.h)
    (hc : c < (backgroundInitState data bs fs mask method s it).data.w) :
    (backgroundInitState data bs fs mask method s it).data.mask r c = true := by
  rw [initState_data_h] at hr
  rw [initState_data_w] at hc
  unfold backgroundInitState padData
  dsimp only
  by_cases hp : data.h % bs.1 > 0 ∨ data.w % bs.2 > 0
  · rw [if_pos hp]
    dsimp only
    rw [if_neg hout]
    simp [PixVal.isnan]
  · exfalso
    have h1 : data.h % bs.1 = 0 := by omega
    have h2 : data.w % bs.2 = 0 := by omega
    rw [h1, Nat.sub_zero, Nat.mod_self] at hr
    rw [h2, Nat.sub_zero, Nat.mod_self] at hc
    omega

lemma initState_nopad (data : PImage) (bs fs : ℕ × ℕ)
    (mask : Option BMask) (method : String) (s : ℚ) (it : Option ℕ)
    (h1 : data.h % bs.1 = 0) (h2 : data.w % bs.2 = 0) :
    (backgroundInitState data bs fs mask method s it).padded = false
  ∧ (backgroundInitState data bs fs mask method s it).data.h = data.h
  ∧ (backgroundInitState data bs fs mask method s it).data.w = data.w
  ∧ ∀ r c, (backgroundInitState data bs fs mask method s it).data.mask r c
      = userMaskAt mask r c := by
  unfold backgroundInitState
  dsimp only
  rw [if_neg (by omega)]
  exact ⟨rfl, rfl, rfl, fun r c => rfl⟩

lemma initState_pad_nanmask (data : PImage) (bs fs : ℕ × ℕ)
    (mask : Option BMask) (method : String) (s : ℚ) (it : Option ℕ)
    (hp : data.h % bs.1 ≠ 0 ∨ data.w % bs.2 ≠ 0) (r c : ℕ)
    (hnan : (data.val r c).isnan = true) :
    (backgroundInitState data bs fs mask method s it).data.mask r c = true := by
  unfold backgroundInitState padData
  dsimp only
  rw [if_pos (show data.h % bs.1 > 0 ∨ data.w % bs.2 > 0 by omega)]
  dsimp only
  by_cases hin : r < data.h ∧ c < data.w
  · rw [if_pos hin, hnan]
    simp
  · rw [if_neg hin]
    simp [PixVal.isnan]

lemma initState_not_padded (data : PImage) (bs fs : ℕ × ℕ)
    (mask : Option BMask) (method : String) (s : ℚ) (it : Option ℕ)
    (h : (backgroundInitState data bs fs mask method s it).padded = false) :
    data.h % bs.1 = 0 ∧ data.w % bs.2 = 0 := by
  unfold backgroundInitState at h
  dsimp only at h
  by_cases hp : data.h % bs.1 > 0 ∨ data.w % bs.2 > 0
  · rw [if_pos hp] at h
    exact absurd h (by simp)
  · omega

lemma init_ok_eq (data : PImage) (bs fs : ℕ × ℕ) (mask : Option BMask)
    (method : String) (s : ℚ) (it : Option ℕ) (st : BackgroundState)
    (hinit : backgroundInit data bs fs mask method s it = Except.ok st) :
    st = backgroundInitState data bs fs mask method s it := by
  unfold backgroundInit at hinit
  cases mask with
  | none =>
      injection hinit with h
      exact h.symm
  | some m =>
      dsimp only at hinit
      split at hinit
      · exact absurd hinit (by simp)
      · injection hinit with h
        exact h.symm

/-! ### Claim theorems: construction and padding -/

/-- C3: for an image of shape `(H, W)` and box shape `(box_h, box_w)`, the
retained data has shape `(H + ((box_h - H % box_h) % box_h),
W + ((box_w - W % box_w) % box_w))`; padding is appended only at high
indices (values at original indices are unchanged); every padded-in pixel
is masked; and when both dimensions divide evenly no padding is applied
and the mask equals the input mask (all-false if absent). -/
theorem padding_shape_spec (data : PImage) (bs fs : ℕ × ℕ)
    (mask : Option BMask) (method : String) (s : ℚ) (it : Option ℕ)
    (st : BackgroundState)
    (hinit : backgroundInit data bs fs mask method s it = Except.ok st) :
    st.data.h = data.h + (bs.1 - data.h % bs.1) % bs.1
  ∧ st.data.w = data.w + (bs.2 - data.w % bs.2) % bs.2
  ∧ (∀ r c, r < data.h → c < data.w → st.data.val r c = data.val r c)
  ∧ (∀ r c, r < st.data.h → c < st.data.w → ¬(r < data.h ∧ c < data.w) →
      st.data.mask r c = true)
  ∧ (data.h % bs.1 = 0 → data.w % bs.2 = 0 →
      st.padded = false ∧ st.data.h = data.h ∧ st.data.w = data.w ∧
      ∀ r c, st.data.mask r c = userMaskAt mask r c) := by
  obtain rfl := init_ok_eq data bs fs mask method s it st hinit
  refine ⟨initState_data_h data bs fs mask method s it,
    initState_data_w data bs fs mask method s it,
    fun r c hr hc => initState_val_orig data bs fs mask method s it r c hr hc,
    fun r c hr hc hout =>
      initState_mask_outside data bs fs mask method s it r c hout hr hc,
    fun h1 h2 => ?_⟩
  obtain ⟨hp, hh, hw, hm⟩ := initState_nopad data bs fs mask method s it h1 h2
  exact ⟨hp, hh, hw, hm⟩

/-- Fixture: a 3×5 all-ones image (neither dimension divisible by 2). -/
def dataA : PImage := ⟨3, 5, fun _ _ => PixVal.num 1⟩

/-- Fixture: the state built from `dataA` with box shape `(2, 2)`. -/
def stA : BackgroundState :=
  backgroundInitState dataA (2, 2) (1, 1) none "sextractor" 3 none

theorem padding_shape_witness :
    stA.data.h = 3 + (2 - 3 % 2) % 2 ∧ stA.data.val 2 4 = PixVal.num 1
      ∧ stA.data.mask 3 0 = true :=
  ⟨(padding_shape_spec dataA (2, 2) (1, 1) none "sextractor" 3 none stA rfl).1,
   (padding_shape_spec dataA (2, 2) (1, 1) none "sextractor" 3 none stA
      rfl).2.2.1 2 4 (by decide) (by decide),
   (padding_shape_spec dataA (2, 2) (1, 1) none "sextractor" 3 none stA
      rfl).2.2.2.1 3 0 (by decide) (by decide) (by decide)⟩

/-- C6: construction fails with the shape-mismatch error exactly when a
mask whose shape differs from the data shape is supplied; with a matching
mask or no mask it returns the constructed state (so no partial state can
be observed on failure, and no such error occurs on success). -/
theorem mask_shape_check_spec (data : PImage) (bs fs : ℕ × ℕ)
    (method : String) (s : ℚ) (it : Option ℕ) :
    (∀ m : BMask, (m.h ≠ data.h ∨ m.w ≠ data.w) →
        backgroundInit data bs fs (some m) method s it
          = Except.error "mask shape must match data shape")
  ∧ (∀ m : BMask, m.h = data.h → m.w = data.w →
        backgroundInit data bs fs (some m) method s it
          = Except.ok (backgroundInitState data bs fs (some m) method s it))
  ∧ backgroundInit data bs fs none method s it
      = Except.ok (backgroundInitState data bs fs none method s it) := by
  refine ⟨fun m hm => ?_, fun m h1 h2 => ?_, rfl⟩
  · unfold backgroundInit
    dsimp only
    rw [if_pos hm]
  · unfold backgroundInit
    dsimp only
    rw [if_neg (by omega)]

/-- Fixture: a 2×2 boolean mask (wrong shape for `dataA`). -/
def maskBad : BMask := ⟨2, 2, fun _ _ => false⟩

/-- Fixture: a 3×5 all-false mask (matching `dataA`). -/
def maskGood : BMask := ⟨3, 5, fun _ _ => false⟩

theorem mask_shape_check_witness :
    backgroundInit dataA (2, 2) (1, 1) (some maskBad) "sextractor" 3 none
      = Except.error "mask shape must match data shape"
  ∧ backgroundInit dataA (2, 2) (1, 1) (some maskGood) "sextractor" 3 none
      = Except.ok (backgroundInitState dataA (2, 2) (1, 1) (some maskGood)
          "sextractor" 3 none) :=
  ⟨(mask_shape_check_spec dataA (2, 2) (1, 1) "sextractor" 3 none).1 maskBad
      (by decide),
   (mask_shape_check_spec dataA (2, 2) (1, 1) "sextractor" 3 none).2.1
      maskGood (by decide) (by decide)⟩

/-- C10: when padding is applied (some dimension does not divide), every
NaN pixel of the original image is masked even where the user mask is
false, because the pad mask is `np.isnan` of the padded array; when no
padding is applied the stored mask is exactly the user mask, so NaN
pixels are not masked and enter the tile statistics. -/
theorem nan_masking_spec (data : PImage) (bs fs : ℕ × ℕ)
    (mask : Option BMask) (method : String) (s : ℚ) (it : Option ℕ)
    (st : BackgroundState)
    (hinit : backgroundInit data bs fs mask method s it = Except.ok st) :
    ((data.h % bs.1 ≠ 0 ∨ data.w % bs.2 ≠ 0) →
      ∀ r c, (data.val r c).isnan = true → st.data.mask r c = true)
  ∧ (data.h % bs.1 = 0 → data.w % bs.2 = 0 →
      ∀ r c, st.data.mask r c = userMaskAt mask r c) := by
  obtain rfl := init_ok_eq data bs fs mask method s it st hinit
  exact ⟨fun hp r c hnan =>
      initState_pad_nanmask data bs fs mask method s it hp r c hnan,
    fun h1 h2 => (initState_nopad data bs fs mask method s it h1 h2).2.2.2⟩

/-- Fixture: a 2×2 image with a NaN at `(0, 0)` (divisible by `(2, 2)`:
no padding). -/
def dataB : PImage :=
  ⟨2, 2, fun r c => if r = 0 ∧ c = 0 then PixVal.nan else PixVal.num 1⟩

/-- Fixture: a 3×2 image with a NaN at `(0, 0)` (rows not divisible by 2:
padding applied). -/
def dataC : PImage :=
  ⟨3, 2, fun r c => if r = 0 ∧ c = 0 then PixVal.nan else PixVal.num 1⟩

/-- Fixture: the state built from `dataB` (unpadded, NaN unmasked). -/
def stB : BackgroundState :=
  backgroundInitState dataB (2, 2) (1, 1) none "sextractor" 3 none

/-- Fixture: the state built from `dataC` (padded, NaN masked). -/
def stC : BackgroundState :=
  backgroundInitState dataC (2, 2) (1, 1) none "sextractor" 3 none

theorem nan_masking_witness :
    stC.data.mask 0 0 = true ∧ stB.data.mask 0 0 = false :=
  ⟨(nan_masking_spec dataC (2, 2) (1, 1) none "sextractor" 3 none stC rfl).1
      (by decide) 0 0 (by decide),
   (nan_masking_spec dataB (2, 2) (1, 1) none "sextractor" 3 none stB rfl).2
      (by decide) (by decide) 0 0⟩

/-! ### Claim theorems: the full-resolution maps -/

lemma zeroWhereMasked_h (mask : Option BMask) (a : Arr) :
    (zeroWhereMasked mask a).h = a.h := by
  cases mask <;> rfl

lemma zeroWhereMasked_w (mask : Option BMask) (a : Arr) :
    (zeroWhereMasked mask a).w = a.w := by
  cases mask <;> rfl

lemma zeroWhereMasked_val (m : BMask) (a : Arr) (r c : ℕ)
    (hrc : m.val r c = true) :
    (zeroWhereMasked (some m) a).val r c = 0 := by
  unfold zeroWhereMasked
  dsimp only
  rw [hrc]
  rfl

lemma cropped_shape (st : BackgroundState) (a : Arr)
    (hh : a.h = st.data.h) (hw : a.w = st.data.w)
    (hle1 : st.dataShapeOrig.1 ≤ st.data.h)
    (hle2 : st.dataShapeOrig.2 ≤ st.data.w)
    (hnp : st.padded = false →
      st.data.h = st.dataShapeOrig.1 ∧ st.data.w = st.dataShapeOrig.2) :
    (if st.padded then cropSlice a st.dataShapeOrig.1 st.dataShapeOrig.2
     else a).h = st.dataShapeOrig.1
  ∧ (if st.padded then cropSlice a st.dataShapeOrig.1 st.dataShapeOrig.2
     else a).w = st.dataShapeOrig.2 := by
  cases hp : st.padded
  · simp only [Bool.false_eq_true, if_false]
    obtain ⟨h1, h2⟩ := hnp hp
    omega
  · rw [if_pos rfl]
    unfold cropSlice
    dsimp only
    omega

/-- C4: whatever the interpolant (spline), filter and clip results, the
full-resolution outputs have the original image's shape: the map over the
padded grid is cropped back by a prefix slice of the first `H` rows and
`W` columns. -/
theorem output_shape_spec (data : PImage) (bs fs : ℕ × ℕ)
    (mask : Option BMask) (method : String) (s : ℚ) (it : Option ℕ)
    (st : BackgroundState)
    (hinit : backgroundInit data bs fs mask method s it = Except.ok st)
    (stdF : List ℚ → ℚ) (filterF : Arr → Arr)
    (spline : Arr → ℕ → ℕ → ℚ) (g : TileGrid) :
    (backgroundRms st stdF filterF spline g).h = data.h
  ∧ (backgroundRms st stdF filterF spline g).w = data.w
  ∧ (∀ b, background st filterF spline g = Except.ok b →
      b.h = data.h ∧ b.w = data.w) := by
  obtain rfl := init_ok_eq data bs fs mask method s it st hinit
  have hOrig := initState_dataShapeOrig data bs fs mask method s it
  have hh := initState_data_h data bs fs mask method s it
  have hw := initState_data_w data bs fs mask method s it
  have hle1 : (backgroundInitState data bs fs mask method s it).dataShapeOrig.1
      ≤ (backgroundInitState data bs fs mask method s it).data.h := by
    rw [hOrig, hh]
    omega
  have hle2 : (backgroundInitState data bs fs mask method s it).dataShapeOrig.2
      ≤ (backgroundInitState data bs fs mask method s it).data.w := by
    rw [hOrig, hw]
    omega
  have hnp : (backgroundInitState data bs fs mask method s it).padded = false →
      (backgroundInitState data bs fs mask method s it).data.h
        = (backgroundInitState data bs fs mask method s it).dataShapeOrig.1
      ∧ (backgroundInitState data bs fs mask method s it).data.w
        = (backgroundInitState data bs fs mask method s it).dataShapeOrig.2 := by
    intro hpf
    obtain ⟨h1, h2⟩ :=
      initState_not_padded data bs fs mask method s it hpf
    obtain ⟨_, hdh, hdw, _⟩ := initState_nopad data bs fs mask method s it h1 h2
    rw [hOrig, hdh, hdw]
    exact ⟨rfl, rfl⟩
  have hcrop := cropped_shape (backgroundInitState data bs fs mask method s it)
    (resizeMeshes (backgroundInitState data bs fs mask method s it) spline
      (backgroundRmsMesh (backgroundInitState data bs fs mask method s it)
        stdF filterF g)) rfl rfl hle1 hle2 hnp
  refine ⟨?_, ?_, ?_⟩
  · unfold backgroundRms
    rw [zeroWhereMasked_h, hcrop.1, hOrig]
  · unfold backgroundRms
    rw [zeroWhereMasked_w, hcrop.2, hOrig]
  · intro b hb
    unfold background backgroundMesh at hb
    cases hmm : methodMesh
        (backgroundInitState data bs fs mask method s it).method g with
    | error e =>
        rw [hmm] at hb
        simp at hb
    | ok mesh =>
        rw [hmm] at hb
        dsimp only at hb
        injection hb with hb
        subst hb
        have hcrop2 := cropped_shape
          (backgroundInitState data bs fs mask method s it)
          (resizeMeshes (backgroundInitState data bs fs mask method s it)
            spline
            (if (backgroundInitState data bs fs mask method s it).filterShape
                ≠ (1, 1) then filterF mesh else mesh))
          rfl rfl hle1 hle2 hnp
        rw [zeroWhereMasked_h, zeroWhereMasked_w, hcrop2.1, hcrop2.2, hOrig]
        exact ⟨rfl, rfl⟩

theorem output_shape_witness :
    (backgroundRms stA (fun _ => 0) (fun a => a) (fun _ _ _ => 0)
      ⟨2, 3, 4, fun _ _ _ => 0, fun _ _ _ => false⟩).h = 3
  ∧ (backgroundRms stA (fun _ => 0) (fun a => a) (fun _ _ _ => 0)
      ⟨2, 3, 4, fun _ _ _ => 0, fun _ _ _ => false⟩).w = 5 :=
  ⟨(output_shape_spec dataA (2, 2) (1, 1) none "sextractor" 3 none stA rfl
      (fun _ => 0) (fun a => a) (fun _ _ _ => 0)
      ⟨2, 3, 4, fun _ _ _ => 0, fun _ _ _ => false⟩).1,
   (output_shape_spec dataA (2, 2) (1, 1) none "sextractor" 3 none stA rfl
      (fun _ => 0) (fun a => a) (fun _ _ _ => 0)
      ⟨2, 3, 4, fun _ _ _ => 0, fun _ _ _ => false⟩).2.1⟩

/-- C2: for every state, method, filter, spline and clipped grid, every
pixel whose user-mask entry is true is exactly `0` in both full-resolution
outputs, overriding the interpolated value. -/
theorem masked_pixels_zero_spec (st : BackgroundState) (stdF : List ℚ → ℚ)
    (filterF : Arr → Arr) (spline : Arr → ℕ → ℕ → ℚ) (g : TileGrid)
    (m : BMask) (hm : st.mask = some m) (r c : ℕ)
    (hrc : m.val r c = true) :
    (backgroundRms st stdF filterF spline g).val r c = 0
  ∧ (∀ b, background st filterF spline g = Except.ok b → b.val r c = 0) := by
  constructor
  · unfold backgroundRms
    rw [hm]
    exact zeroWhereMasked_val m _ r c hrc
  · intro b hb
    unfold background backgroundMesh at hb
    cases hmm : methodMesh st.method g with
    | error e =>
        rw [hmm] at hb
        simp at hb
    | ok mesh =>
        rw [hmm] at hb
        dsimp only at hb
        injection hb with hb
        subst hb
        rw [hm]
        exact zeroWhereMasked_val m _ r c hrc

/-- Fixture: a 3×5 mask that is true exactly at `(1, 2)`. -/
def maskOne : BMask := ⟨3, 5, fun r c => r = 1 ∧ c = 2⟩

/-- Fixture: the state built from `dataA` with `maskOne`. -/
def stD : BackgroundState :=
  backgroundInitState dataA (2, 2) (3, 3) (some maskOne) "mean" 3 none

/-- Fixture: the `Except.ok` payload of `background` for `stD` with
trivial black boxes (used to instantiate the universally quantified
conclusion of the C2 theorem at a concrete point). -/
def bArrD : Arr :=
  (background stD (fun a => a) (fun _ _ _ => 7) ⟨2, 3, 4, fun _ _ _ => 2,
    fun _ _ _ => false⟩).toOption.getD ⟨0, 0, fun _ _ => 0⟩

theorem masked_pixels_zero_witness :
    (backgroundRms stD (fun _ => 1) (fun a => a) (fun _ _ _ => 7)
      ⟨2, 3, 4, fun _ _ _ => 2, fun _ _ _ => false⟩).val 1 2 = 0
  ∧ bArrD.val 1 2 = 0 :=
  ⟨(masked_pixels_zero_spec stD (fun _ => 1) (fun a => a) (fun _ _ _ => 7)
      ⟨2, 3, 4, fun _ _ _ => 2, fun _ _ _ => false⟩ maskOne rfl 1 2
      (by decide)).1,
   (masked_pixels_zero_spec stD (fun _ => 1) (fun a => a) (fun _ _ _ => 7)
      ⟨2, 3, 4, fun _ _ _ => 2, fun _ _ _ => false⟩ maskOne rfl 1 2
      (by decide)).2 bArrD rfl⟩

/-- C7: `background_mesh` fails with the invalid-method error exactly for
method strings outside the four known ones (whatever the filter and the
clipped grid), while construction itself accepts any method string. -/
theorem unknown_method_spec (st : BackgroundState) (filterF : Arr → Arr)
    (g : TileGrid) :
    (st.method ∉ knownMethods →
        backgroundMesh st filterF g
          = Except.error ("method \"" ++ st.method ++ "\" is not defined"))
  ∧ (st.method ∈ knownMethods →
        ∃ mesh, backgroundMesh st filterF g = Except.ok mesh)
  ∧ (∀ data bs fs s it,
        backgroundInit data bs fs none st.method s it
          = Except.ok (backgroundInitState data bs fs none st.method s it)) := by
  refine ⟨fun hno => ?_, fun hyes => ?_, fun data bs fs s it => rfl⟩
  · simp only [knownMethods, List.mem_cons, List.not_mem_nil, or_false,
      not_or] at hno
    obtain ⟨h1, h2, h3, h4⟩ := hno
    have hmm : methodMesh st.method g
        = Except.error ("method \"" ++ st.method ++ "\" is not defined") := by
      unfold methodMesh
      rw [if_neg h1, if_neg h2, if_neg h3, if_neg h4]
    unfold backgroundMesh
    rw [hmm]
  · simp only [knownMethods, List.mem_cons, List.not_mem_nil, or_false] at hyes
    unfold backgroundMesh methodMesh
    rcases hyes with h | h | h | h <;> rw [h] <;> simp

/-- Fixture: a state whose method string is unknown. -/
def stE : BackgroundState :=
  backgroundInitState dataA (2, 2) (1, 1) none "sextraktor" 3 none

theorem unknown_method_witness :
    backgroundMesh stE (fun a => a) ⟨2, 3, 4, fun _ _ _ => 0,
        fun _ _ _ => false⟩
      = Except.error ("method \"" ++ stE.method ++ "\" is not defined")
  ∧ backgroundInit dataA (2, 2) (1, 1) none stE.method 3 none
      = Except.ok (backgroundInitState dataA (2, 2) (1, 1) none stE.method
          3 none) :=
  ⟨(unknown_method_spec stE (fun a => a) ⟨2, 3, 4, fun _ _ _ => 0,
      fun _ _ _ => false⟩).1 (by decide),
   (unknown_method_spec stE (fun a => a) ⟨2, 3, 4, fun _ _ _ => 0,
      fun _ _ _ => false⟩).2.2 dataA (2, 2) (1, 1) 3 none⟩

/-- C8: with `filter_shape == (1, 1)` the filtering step is skipped
entirely — for every possible filter function, `background_mesh` and
`background_rms_mesh` equal the unfiltered per-tile reductions. -/
theorem filter_identity_spec (st : BackgroundState)
    (hfs : st.filterShape = (1, 1)) (filterF : Arr → Arr)
    (stdF : List ℚ → ℚ) (g : TileGrid) :
    backgroundMesh st filterF g = methodMesh st.method g
  ∧ backgroundRmsMesh st stdF filterF g = stdMesh stdF g := by
  constructor
  · unfold backgroundMesh
    cases hmm : methodMesh st.method g with
    | error e => rfl
    | ok mesh =>
        dsimp only
        rw [if_neg (by simp [hfs])]
  · unfold backgroundRmsMesh
    dsimp only
    rw [if_neg (by simp [hfs])]

theorem filter_identity_witness :
    backgroundMesh stA (fun _ => Arr.mk 9 9 (fun _ _ => 9))
        ⟨2, 3, 4, fun _ _ _ => 0, fun _ _ _ => false⟩
      = methodMesh stA.method ⟨2, 3, 4, fun _ _ _ => 0, fun _ _ _ => false⟩
  ∧ backgroundRmsMesh stA (fun _ => 0)
        (fun _ => Arr.mk 9 9 (fun _ _ => 9))
        ⟨2, 3, 4, fun _ _ _ => 0, fun _ _ _ => false⟩
      = stdMesh (fun _ => 0) ⟨2, 3, 4, fun _ _ _ => 0, fun _ _ _ => false⟩ :=
  filter_identity_spec stA (by decide) (fun _ => Arr.mk 9 9 (fun _ _ => 9))
    (fun _ => 0) ⟨2, 3, 4, fun _ _ _ => 0, fun _ _ _ => false⟩

/-- C9: the RMS path never consults the method string: all three RMS
quantities are total functions (they cannot raise the unknown-method
error, which only `background_mesh` and the quantities built on it can)
and are unchanged under any change of method, and `background_rms_mesh`
is the per-tile std reduction, optionally filtered. -/
theorem rms_method_independent_spec (st : BackgroundState) (m1 m2 : String)
    (stdF : List ℚ → ℚ) (filterF : Arr → Arr) (spline : Arr → ℕ → ℕ → ℚ)
    (g : TileGrid) :
    backgroundRmsMesh { st with method := m1 } stdF filterF g
      = backgroundRmsMesh { st with method := m2 } stdF filterF g
  ∧ backgroundRms { st with method := m1 } stdF filterF spline g
      = backgroundRms { st with method := m2 } stdF filterF spline g
  ∧ backgroundRmsMedian { st with method := m1 } stdF filterF spline g
      = backgroundRmsMedian { st with method := m2 } stdF filterF spline g
  ∧ backgroundRmsMesh st stdF filterF g
      = (if st.filterShape ≠ (1, 1) then filterF (stdMesh stdF g)
         else stdMesh stdF g) :=
  ⟨rfl, rfl, rfl, rfl⟩

/-! ### Claim theorem: the tiling reshape -/

lemma mul_add_div_lt (u v b : ℕ) (hb : 0 < b) (hv : v < b) :
    (u * b + v) / b = u := by
  rw [Nat.add_comm, Nat.add_mul_div_right _ _ hb, Nat.div_eq_of_lt hv,
    Nat.zero_add]

lemma mul_add_mod_lt (u v b : ℕ) (hv : v < b) : (u * b + v) % b = v := by
  rw [Nat.add_comm, Nat.add_mul_mod_self_right, Nat.mod_eq_of_lt hv]

lemma pad_dvd (n b : ℕ) (hb : 0 < b) : b ∣ n + (b - n % b) % b := by
  rcases Nat.eq_zero_or_pos (n % b) with he | he
  · rw [he, Nat.sub_zero, Nat.mod_self, Nat.add_zero]
    exact Nat.dvd_of_mod_eq_zero he
  · rw [Nat.mod_eq_of_lt (Nat.sub_lt hb he)]
    have hd := Nat.div_add_mod n b
    have hlt : n % b < b := Nat.mod_lt _ hb
    refine ⟨n / b + 1, ?_⟩
    rw [Nat.mul_add, Nat.mul_one]
    omega

lemma initState_boxShape (data : PImage) (bs fs : ℕ × ℕ)
    (mask : Option BMask) (method : String) (s : ℚ) (it : Option ℕ) :
    (backgroundInitState data bs fs mask method s it).boxShape = bs := by
  unfold backgroundInitState
  dsimp only
  split <;> rfl

lemma rebin_eval (f : ℕ → ℕ → α) (W bh bw i j u v : ℕ) (hbw : 0 < bw)
    (hdvd : bw ∣ W) (hj : j < W / bw) (hv : v < bw) :
    reshapeMerge23 bw (swapaxes12 (reshape4 bh (W / bw) bw (flatten2 W f)))
        i j (u * bw + v)
      = f (i * bh + u) (j * bw + v) := by
  unfold reshapeMerge23 swapaxes12 reshape4 flatten2
  rw [mul_add_div_lt u v bw hbw hv, mul_add_mod_lt u v bw hv]
  have hxnb : 0 < W / bw := Nat.pos_of_ne_zero (by omega)
  have hW : W / bw * bw = W := Nat.div_mul_cancel hdvd
  have hWpos : 0 < W := by
    rw [← hW]
    exact Nat.mul_pos hxnb hbw
  have h1 : (j + 1) * bw ≤ W / bw * bw := Nat.mul_le_mul_right bw hj
  rw [hW, Nat.add_mul, Nat.one_mul] at h1
  have hr : j * bw + v < W := by omega
  have hN : ((i * bh + u) * (W / bw) + j) * bw + v
      = (i * bh + u) * W + (j * bw + v) := by
    rw [Nat.add_mul, Nat.mul_assoc, hW, Nat.add_assoc]
  rw [hN]
  congr 1
  · rw [Nat.add_comm, Nat.add_mul_div_right _ _ hWpos, Nat.div_eq_of_lt hr,
      Nat.zero_add]
  · rw [Nat.add_comm, Nat.add_mul_mod_self_right, Nat.mod_eq_of_lt hr]

/-- C5: `_sigclip_data` maps padded pixel `(r, c)` to tile
`(r / box_h, c / box_w)` at intra-tile offset `(r % box_h, c % box_w)`:
`data_rebin[i, j, u*box_w + v] = padded[i*box_h + u, j*box_w + v]` for the
value and mask planes, and the pixel-to-tile index map is invertible (the
two roundtrips are identities and both maps land in range). -/
theorem tile_reshape_spec (data : PImage) (bs fs : ℕ × ℕ)
    (mask : Option BMask) (method : String) (s : ℚ) (it : Option ℕ)
    (st : BackgroundState)
    (hinit : backgroundInit data bs fs mask method s it = Except.ok st)
    (hbh : 0 < bs.1) (hbw : 0 < bs.2) :
    (∀ i j u v, i < st.data.h / bs.1 → j < st.data.w / bs.2 → u < bs.1 →
        v < bs.2 →
        dataRebinVal st i j (u * bs.2 + v)
          = st.data.val (i * bs.1 + u) (j * bs.2 + v)
      ∧ dataRebinMask st i j (u * bs.2 + v)
          = st.data.mask (i * bs.1 + u) (j * bs.2 + v))
  ∧ (∀ r c, r < st.data.h → c < st.data.w →
        tileToPix bs.1 bs.2 (pixToTile bs.1 bs.2 r c) = (r, c)
      ∧ (pixToTile bs.1 bs.2 r c).1 < st.data.h / bs.1
      ∧ (pixToTile bs.1 bs.2 r c).2.1 < st.data.w / bs.2
      ∧ (pixToTile bs.1 bs.2 r c).2.2 < bs.1 * bs.2)
  ∧ (∀ i j k, i < st.data.h / bs.1 → j < st.data.w / bs.2 →
        k < bs.1 * bs.2 →
        pixToTile bs.1 bs.2 (tileToPix bs.1 bs.2 (i, j, k)).1
          (tileToPix bs.1 bs.2 (i, j, k)).2 = (i, j, k)
      ∧ (tileToPix bs.1 bs.2 (i, j, k)).1 < st.data.h
      ∧ (tileToPix bs.1 bs.2 (i, j, k)).2 < st.data.w) := by
  obtain rfl := init_ok_eq data bs fs mask method s it st hinit
  have hbs := initState_boxShape data bs fs mask method s it
  have hdvdh : bs.1 ∣
      (backgroundInitState data bs fs mask method s it).data.h := by
    rw [initState_data_h]
    exact pad_dvd data.h bs.1 hbh
  have hdvdw : bs.2 ∣
      (backgroundInitState data bs fs mask method s it).data.w := by
    rw [initState_data_w]
    exact pad_dvd data.w bs.2 hbw
  refine ⟨fun i j u v hi hj hu hv => ?_, fun r c hr hc => ?_,
    fun i j k hi hj hk => ?_⟩
  · unfold dataRebinVal dataRebinMask
    rw [hbs]
    exact ⟨rebin_eval _ _ bs.1 bs.2 i j u v hbw hdvdw hj hv,
      rebin_eval _ _ bs.1 bs.2 i j u v hbw hdvdw hj hv⟩
  · have hrm : r % bs.1 < bs.1 := Nat.mod_lt _ hbh
    have hcm : c % bs.2 < bs.2 := Nat.mod_lt _ hbw
    unfold pixToTile tileToPix
    dsimp only
    rw [mul_add_div_lt _ _ _ hbw hcm, mul_add_mod_lt _ _ _ hcm]
    refine ⟨?_, ?_, ?_, ?_⟩
    · have h1 := Nat.div_add_mod' r bs.1
      have h2 := Nat.div_add_mod' c bs.2
      simp only [Prod.mk.injEq]
      omega
    · exact Nat.div_lt_div_of_lt_of_dvd hdvdh hr
    · exact Nat.div_lt_div_of_lt_of_dvd hdvdw hc
    · have h1 : (r % bs.1 + 1) * bs.2 ≤ bs.1 * bs.2 :=
        Nat.mul_le_mul_right bs.2 hrm
      rw [Nat.add_mul, Nat.one_mul] at h1
      omega
  · have hkd : k / bs.2 < bs.1 := (Nat.div_lt_iff_lt_mul hbw).mpr hk
    have hkm : k % bs.2 < bs.2 := Nat.mod_lt _ hbw
    unfold pixToTile tileToPix
    dsimp only
    rw [mul_add_div_lt _ _ _ hbh hkd, mul_add_mod_lt _ _ _ hkd,
      mul_add_div_lt _ _ _ hbw hkm, mul_add_mod_lt _ _ _ hkm]
    refine ⟨?_, ?_, ?_⟩
    · have h1 := Nat.div_add_mod' k bs.2
      simp only [Prod.mk.injEq, and_true, true_and]
      exact h1
    · have h1 : (i + 1) * bs.1 ≤
          (backgroundInitState data bs fs mask method s it).data.h / bs.1
            * bs.1 :=
        Nat.mul_le_mul_right bs.1 hi
      rw [Nat.div_mul_cancel hdvdh, Nat.add_mul, Nat.one_mul] at h1
      omega
    · have h1 : (j + 1) * bs.2 ≤
          (backgroundInitState data bs fs mask method s it).data.w / bs.2
            * bs.2 :=
        Nat.mul_le_mul_right bs.2 hj
      rw [Nat.div_mul_cancel hdvdw, Nat.add_mul, Nat.one_mul] at h1
      omega

theorem tile_reshape_witness :
    dataRebinVal stA 1 2 (0 * 2 + 1) = stA.data.val (1 * 2 + 0) (2 * 2 + 1)
  ∧ tileToPix 2 2 (pixToTile 2 2 3 4) = (3, 4) :=
  ⟨((tile_reshape_spec dataA (2, 2) (1, 1) none "sextractor" 3 none stA rfl
      (by decide) (by decide)).1 1 2 0 1 (by decide) (by decide) (by decide)
      (by decide)).1,
   ((tile_reshape_spec dataA (2, 2) (1, 1) none "sextractor" 3 none stA rfl
      (by decide) (by decide)).2.1 3 4 (by decide) (by decide)).1⟩

/-! ### Claim theorem: the SExtractor estimator -/

lemma maVar_nonneg (xs : List ℚ) : 0 ≤ maVar xs := by
  unfold maVar
  apply div_nonneg
  · apply List.sum_nonneg
    intro y hy
    simp only [List.mem_map] at hy
    obtain ⟨x, _, rfl⟩ := hy
    positivity
  · exact_mod_cast Nat.zero_le xs.length

lemma sexCondition_iff_real (mean med var : ℚ) (hv : 0 ≤ var)
    (hne : var ≠ 0) :
    sexCondition mean med var = true ↔
      |((mean : ℝ)) - ((med : ℝ))| / Real.sqrt ((var : ℚ) : ℝ)
        < 0.3 := by
  have hvpos : (0 : ℝ) < ((var : ℚ) : ℝ) := by
    exact_mod_cast lt_of_le_of_ne hv (Ne.symm hne)
  have hs : 0 < Real.sqrt ((var : ℚ) : ℝ) := Real.sqrt_pos.mpr hvpos
  have hs2 : Real.sqrt ((var : ℚ) : ℝ) ^ 2 = ((var : ℚ) : ℝ) :=
    Real.sq_sqrt hvpos.le
  unfold sexCondition
  rw [if_neg hne, decide_eq_true_eq]
  constructor
  · intro h
    have hr : 100 * (((mean : ℚ) : ℝ) - ((med : ℚ) : ℝ)) ^ 2
        < 9 * ((var : ℚ) : ℝ) := by
      exact_mod_cast h
    rw [div_lt_iff₀ hs]
    nlinarith [abs_nonneg (((mean : ℚ) : ℝ) - ((med : ℚ) : ℝ)),
      sq_abs (((mean : ℚ) : ℝ) - ((med : ℚ) : ℝ)), hs, hs2]
  · intro h
    rw [div_lt_iff₀ hs] at h
    have hr : 100 * (((mean : ℚ) : ℝ) - ((med : ℚ) : ℝ)) ^ 2
        < 9 * ((var : ℚ) : ℝ) := by
      nlinarith [abs_nonneg (((mean : ℚ) : ℝ) - ((med : ℚ) : ℝ)),
        sq_abs (((mean : ℚ) : ℝ) - ((med : ℚ) : ℝ)), hs, hs2]
    exact_mod_cast hr

/-- C1: for method `"sextractor"` the mesh value of a tile is
`2.5*median - 1.5*mean` of the tile's unmasked clipped values when
`|mean - median| / std < 0.3` (with `std` the square root of the exact
population variance), and the median otherwise; when the tile's `std` is
exactly zero the condition is treated as false (IEEE division of
`|mean - median|` by `0.0` gives `inf` or `nan`, which fails the `< 0.3`
comparison) and the median is used, with no division-by-zero failure. -/
theorem sextractor_mesh_spec (g : TileGrid) (i j : ℕ) :
    methodMesh "sextractor" g = Except.ok (sexMesh g)
  ∧ (maVar (tileValues g i j) ≠ 0 →
      |((maMean (tileValues g i j) : ℚ) : ℝ)
          - ((maMedian (tileValues g i j) : ℚ) : ℝ)|
          / Real.sqrt ((maVar (tileValues g i j) : ℚ)) < 0.3 →
      (sexMesh g).val i j
        = 2.5 * maMedian (tileValues g i j)
            - 1.5 * maMean (tileValues g i j))
  ∧ (maVar (tileValues g i j) ≠ 0 →
      ¬(|((maMean (tileValues g i j) : ℚ) : ℝ)
          - ((maMedian (tileValues g i j) : ℚ) : ℝ)|
          / Real.sqrt ((maVar (tileValues g i j) : ℚ)) < 0.3) →
      (sexMesh g).val i j = maMedian (tileValues g i j))
  ∧ (maVar (tileValues g i j) = 0 →
      (sexMesh g).val i j = maMedian (tileValues g i j)) := by
  refine ⟨?_, fun hne hlt => ?_, fun hne hge => ?_, fun hzero => ?_⟩
  · unfold methodMesh
    rw [if_neg (by decide), if_neg (by decide), if_pos rfl]
  · have hcond : sexCondition (maMean (tileValues g i j))
        (maMedian (tileValues g i j)) (maVar (tileValues g i j)) = true :=
      (sexCondition_iff_real _ _ _ (maVar_nonneg _) hne).mpr hlt
    show sexTileVal (tileValues g i j) = _
    unfold sexTileVal
    rw [hcond]
    rfl
  · have hcond : sexCondition (maMean (tileValues g i j))
        (maMedian (tileValues g i j)) (maVar (tileValues g i j)) = false := by
      rcases Bool.eq_false_or_eq_true (sexCondition (maMean (tileValues g i j))
        (maMedian (tileValues g i j)) (maVar (tileValues g i j))) with h | h
      · exact absurd
          ((sexCondition_iff_real _ _ _ (maVar_nonneg _) hne).mp h) hge
      · exact h
    show sexTileVal (tileValues g i j) = _
    unfold sexTileVal
    rw [hcond]
    rfl
  · have hcond : sexCondition (maMean (tileValues g i j))
        (maMedian (tileValues g i j)) (maVar (tileValues g i j)) = false := by
      unfold sexCondition
      rw [if_pos hzero]
    show sexTileVal (tileValues g i j) = _
    unfold sexTileVal
    rw [hcond]
    rfl

/-- Fixture: a one-tile grid whose tile holds two equal values (variance
exactly zero). -/
def gridW : TileGrid := ⟨1, 1, 2, fun _ _ _ => 5, fun _ _ _ => false⟩

theorem sextractor_mesh_witness :
    methodMesh "sextractor" gridW = Except.ok (sexMesh gridW)
  ∧ (sexMesh gridW).val 0 0 = maMedian (tileValues gridW 0 0) :=
  ⟨(sextractor_mesh_spec gridW 0 0).1,
   (sextractor_mesh_spec gridW 0 0).2.2.2 (by
      have h : tileValues gridW 0 0 = [5, 5] := rfl
      rw [h]
      norm_num [maVar, maMean])⟩
